import Mathlib

/-!
Verification of the command-launcher utility `executeCodeCommand`
(src/packages/cli/src/utils/codeCommand.ts) against its specification.

The TypeScript source builds a settings payload out of JavaScript objects,
translates parsed command-line flags back into argv tokens, spawns a
subprocess and maps its termination events to process exits.  We embed the
JavaScript objects as association lists with first-match lookup and
JavaScript assignment semantics (later writes win, existing keys keep their
position), the flag-translation loop as a fold over the parsed entries, and
the event handlers registered on the child process as effect traces.
-/

set_option autoImplicit false

namespace CodeCommand

/-- Value universe for the JSON-like settings objects occurring in the
launcher: strings, integers, booleans and nested objects. -/
inductive JVal where
  | str (s : String)
  | num (n : Int)
  | bool (b : Bool)
  | obj (fields : List (String × JVal))

/-- A JavaScript object is modelled as an association list of fields in
insertion order. -/
abbrev JObj := List (String × JVal)

/-- Field lookup, first match wins (JavaScript objects have unique keys). -/
def jget : JObj → String → Option JVal
  | [], _ => none
  | (k2, v) :: rest, k => if k2 = k then some v else jget rest k

/-- JavaScript property assignment: an existing key keeps its position and
gets the new value; a fresh key is appended at the end. -/
def jset : JObj → String → JVal → JObj
  | [], k, v => [(k, v)]
  | (k2, v2) :: rest, k, v =>
      if k2 = k then (k, v) :: rest else (k2, v2) :: jset rest k v

/-- Semantics of `Object.assign(base, upd)` and of the object spread
`\x7b...base, ...upd\x7d`: every field of `upd` is assigned into `base`
in order. -/
def jassign (base upd : JObj) : JObj :=
  upd.foldl (fun acc kv => jset acc kv.1 kv.2) base

/-- Keys of an object, in order. -/
def jkeys (o : JObj) : List String := o.map Prod.fst

/-- Reading a field that is expected to hold a nested object; a missing or
non-object field spreads to nothing. -/
def jgetObjD (o : JObj) (k : String) : JObj :=
  match jget o k with
  | some (JVal.obj fields) => fields
  | _ => []

theorem jget_jset (o : JObj) (k k2 : String) (v : JVal) :
    jget (jset o k v) k2 = if k = k2 then some v else jget o k2 := by
  induction o with
  | nil =>
      by_cases h : k = k2 <;> simp [jset, jget, h]
  | cons hd tl ih =>
      obtain ⟨hk, hv⟩ := hd
      by_cases h1 : hk = k
      · subst h1
        by_cases h2 : hk = k2
        · subst h2
          simp [jset, jget]
        · simp [jset, jget, h2]
      · by_cases h2 : hk = k2
        · subst h2
          have hkk : ¬ k = hk := fun h => h1 h.symm
          simp [jset, h1, jget, hkk]
        · simp [jset, h1, jget, h2, ih]

theorem jget_eq_none_of_not_mem_keys (o : JObj) (k : String) (h : k ∉ jkeys o) :
    jget o k = none := by
  induction o with
  | nil => rfl
  | cons hd tl ih =>
      obtain ⟨k2, v⟩ := hd
      simp only [jkeys, List.map_cons, List.mem_cons] at h
      push_neg at h
      have h2 : ¬ k2 = k := fun hh => h.1 hh.symm
      simp only [jget, h2, if_false]
      exact ih h.2

theorem jget_jassign (a b : JObj) (k : String) (hb : (jkeys b).Nodup) :
    jget (jassign a b) k = (jget b k).or (jget a k) := by
  induction b generalizing a with
  | nil => simp [jassign, jget]
  | cons hd tl ih =>
      obtain ⟨hk, hv⟩ := hd
      simp only [jkeys, List.map_cons, List.nodup_cons] at hb
      obtain ⟨hnotin, hnodup⟩ := hb
      have hstep : jassign a ((hk, hv) :: tl) = jassign (jset a hk hv) tl := by
        simp [jassign]
      rw [hstep, ih (jset a hk hv) hnodup]
      by_cases h : hk = k
      · subst h
        have htl : jget tl hk = none :=
          jget_eq_none_of_not_mem_keys tl hk (by simpa [jkeys] using hnotin)
        simp [htl, jget, jget_jset]
      · have h2 : ¬ k = hk := fun h2 => h (h2.symm)
        simp [jget, h, jget_jset, h2]

theorem jget_jassign_of_not_mem (a b : JObj) (k : String)
    (hb : jget b k = none) : jget (jassign a b) k = jget a k := by
  induction b generalizing a with
  | nil => simp [jassign]
  | cons hd tl ih =>
      obtain ⟨hk, hv⟩ := hd
      simp only [jget] at hb
      by_cases h : hk = k
      · simp [h] at hb
      · simp only [h, if_false] at hb
        have hstep : jassign a ((hk, hv) :: tl) = jassign (jset a hk hv) tl := by
          simp [jassign]
        rw [hstep, ih (jset a hk hv) hb, jget_jset]
        simp [h]

theorem jassign_nil_right (a : JObj) : jassign a [] = a := rfl

theorem jset_of_not_mem (o : JObj) (k : String) (v : JVal) (h : k ∉ jkeys o) :
    jset o k v = o ++ [(k, v)] := by
  induction o with
  | nil => rfl
  | cons hd tl ih =>
      obtain ⟨k2, v2⟩ := hd
      simp only [jkeys, List.map_cons, List.mem_cons] at h
      push_neg at h
      have h2 : ¬ k2 = k := fun hh => h.1 hh.symm
      simp only [jset, h2, if_false, List.cons_append, List.cons.injEq, true_and]
      exact ih (by simpa [jkeys] using h.2)

theorem jassign_eq_append (acc p : JObj) (h : (jkeys acc ++ jkeys p).Nodup) :
    jassign acc p = acc ++ p := by
  induction p generalizing acc with
  | nil => simp [jassign]
  | cons hd tl ih =>
      obtain ⟨k, v⟩ := hd
      have hstep : jassign acc ((k, v) :: tl) = jassign (jset acc k v) tl := rfl
      have hkacc : k ∉ jkeys acc := by
        rw [List.nodup_append] at h
        exact fun hm => h.2.2 hm (by simp [jkeys])
      have ihh : (jkeys (acc ++ [(k, v)]) ++ jkeys tl).Nodup := by
        have hkk : jkeys (acc ++ [(k, v)]) = jkeys acc ++ [k] := by simp [jkeys]
        rw [hkk, List.append_assoc]
        simpa [jkeys] using h
      rw [hstep, jset_of_not_mem acc k v hkacc, ih (acc ++ [(k, v)]) ihh,
        List.append_assoc]
      rfl

theorem jassign_nil (p : JObj) (h : (jkeys p).Nodup) : jassign [] p = p := by
  have h2 := jassign_eq_append [] p (by simpa [jkeys] using h)
  simpa using h2

/-! ## Argument translation

The source parses the argument array with minimist into an object keyed by
flag name (with positionals under the underscore key), then rebuilds an
argv array: single-character keys get a single dash, longer keys a double
dash, boolean true flags become a bare token, boolean false flags are
dropped, and other values are either kept as a separate token
(non-interactive) or combined with the flag into one token (interactive). -/

/-- Parsed flag values produced by minimist: strings, numbers, booleans,
and arrays (for positionals and repeated flags). -/
inductive ArgVal where
  | str (s : String)
  | num (n : Int)
  | bool (b : Bool)
  | arr (vs : List ArgVal)

/-- Character-list view of dropping a number of characters; equivalent to
the usual string drop on the texts occurring here. -/
def strDrop (s : String) (n : Nat) : String := String.mk (s.data.drop n)

/-- Character-list test that one string starts with another. -/
def strStartsWith (s p : String) : Bool := p.data.isPrefixOf s.data

/-- Character-list membership test. -/
def strContains (s : String) (c : Char) : Bool := s.data.contains c

/-- Character-list take-while on a string. -/
def strTakeWhile (p : Char → Bool) (s : String) : String :=
  String.mk (s.data.takeWhile p)

/-- Character-list drop-while on a string. -/
def strDropWhile (p : Char → Bool) (s : String) : String :=
  String.mk (s.data.dropWhile p)

/-- Number of characters of a string. -/
def strLength (s : String) : Nat := s.data.length

/-- Character-list emptiness test. -/
def strIsEmpty (s : String) : Bool := s.data.isEmpty

/-- Character-list universal test. -/
def strAll (s : String) (p : Char → Bool) : Bool := s.data.all p

/-- Value of a digits-only string read in base ten. -/
def strToNat (s : String) : Nat :=
  s.data.foldl (fun acc c => acc * 10 + (c.toNat - 48)) 0

/-- Escapes for characters inside a JSON string literal. -/
def escapeJsonChar (c : Char) : String :=
  if c = '"' then "\\\""
  else if c = '\\' then "\\\\"
  else if c = '\n' then "\\n"
  else if c = '\r' then "\\r"
  else if c = '\t' then "\\t"
  else String.singleton c

/-- Escape every character of a string for a JSON string literal. -/
def escapeJsonString (s : String) : String :=
  s.data.foldl (fun acc c => acc ++ escapeJsonChar c) ""

mutual

/-- Modelled from the spec: textual JSON serialization of a parsed flag
value as performed by the JavaScript builtin used in the source; strings
are quoted with the usual escapes, numbers print in decimal, arrays in
brackets.  The builtin itself is not part of this repository. -/
def jsonStringify : ArgVal → String
  | ArgVal.str s => "\"" ++ escapeJsonString s ++ "\""
  | ArgVal.num n => toString n
  | ArgVal.bool b => if b then "true" else "false"
  | ArgVal.arr vs => "[" ++ jsonStringifyList vs ++ "]"

/-- Comma-separated serialization of a list of values. -/
def jsonStringifyList : List ArgVal → String
  | [] => ""
  | [v] => jsonStringify v
  | v :: vs => jsonStringify v ++ "," ++ jsonStringifyList vs

end

/-- Dash prepended to a flag name: single-character names get a single
dash, longer names a double dash. -/
def dashOf (k : String) : String := if strLength k = 1 then "-" else "--"

/-- Tokens pushed for one entry of the parsed-arguments object, mirroring
the body of the translation loop: the positional key and boolean false
values produce nothing, boolean true produces a bare flag, and any other
value produces either two separate tokens (non-interactive mode, strings
raw and other values serialized) or one combined token (interactive). -/
def emitFlag (nonInteractive : Bool) (kv : String × ArgVal) : List String :=
  if kv.1 = "_" then []
  else
    match kv.2 with
    | ArgVal.bool true => [dashOf kv.1 ++ kv.1]
    | ArgVal.bool false => []
    | v =>
        if nonInteractive then
          [dashOf kv.1 ++ kv.1,
           match v with
           | ArgVal.str s => s
           | v2 => jsonStringify v2]
        else
          [dashOf kv.1 ++ kv.1 ++ " " ++ jsonStringify v]

/-- The translation loop: fold over the entries of the parsed object,
pushing the tokens of each entry onto the result array. -/
def translateArgs (nonInteractive : Bool) (argsObj : List (String × ArgVal)) : List String :=
  argsObj.foldl (fun argsArr kv => argsArr ++ emitFlag nonInteractive kv) []

theorem translateArgs_eq_bind (ni : Bool) (l : List (String × ArgVal)) :
    translateArgs ni l = l.flatMap (emitFlag ni) := by
  suffices h : ∀ acc, l.foldl (fun a kv => a ++ emitFlag ni kv) acc = acc ++ l.flatMap (emitFlag ni) by
    simpa [translateArgs] using h []
  induction l with
  | nil => simp
  | cons hd tl ih =>
      intro acc
      simp [List.foldl_cons, ih, List.append_assoc]

/-! ## Minimist parsing (external dependency)

Modelled from the spec: the source hands the raw argument array to the
external `minimist` package, which is not part of this repository.  The
spec describes it as permissive conventional flag parsing: double-dash
names (with an optional `=value` or a following value token), `no-`
prefixed double-dash names as boolean false, single-dash character
clusters whose last character may take the following token as a value,
number-looking values converted to numbers, and positionals collected
under the underscore key. -/

/-- A token that looks like a flag rather than a value. -/
def looksLikeFlag (s : String) : Bool := strStartsWith s "-"

/-- Digits-only numeric detection for value conversion. -/
def isIntString (s : String) : Bool := !strIsEmpty s && strAll s Char.isDigit

/-- Convert a raw value token: digit strings become numbers, anything else
stays a string. -/
def toArgVal (s : String) : ArgVal :=
  if isIntString s then ArgVal.num (strToNat s) else ArgVal.str s

/-- Write one parsed flag into the object being built: an existing key is
updated in place, a fresh key is appended. -/
def setArg : List (String × ArgVal) → String → ArgVal → List (String × ArgVal)
  | [], k, v => [(k, v)]
  | (k2, v2) :: rest, k, v =>
      if k2 = k then (k, v) :: rest else (k2, v2) :: setArg rest k v

/-- Modelled from the spec: the recursive worker of the minimist model.
Accumulates flag entries and positional values, then places the
positionals under the underscore key in front, matching the entry order
of the minimist result object.  The fuel argument only bounds the
recursion (every step consumes at least one token, so a fuel equal to the
number of tokens is never exhausted). -/
def minimistGo : Nat → List String → List (String × ArgVal) → List ArgVal → List (String × ArgVal)
  | _, [], flags, pos => ("_", ArgVal.arr pos) :: flags
  | 0, _ :: _, flags, pos => ("_", ArgVal.arr pos) :: flags
  | fuel + 1, a :: rest, flags, pos =>
      if strStartsWith a "--" then
        let body := strDrop a 2
        if strContains body '=' then
          minimistGo fuel rest
            (setArg flags (strTakeWhile (· ≠ '=') body)
              (toArgVal (strDrop (strDropWhile (· ≠ '=') body) 1))) pos
        else if strStartsWith body "no-" then
          minimistGo fuel rest (setArg flags (strDrop body 3) (ArgVal.bool false)) pos
        else
          match rest with
          | [] => minimistGo fuel [] (setArg flags body (ArgVal.bool true)) pos
          | b :: rest2 =>
              if looksLikeFlag b then
                minimistGo fuel (b :: rest2) (setArg flags body (ArgVal.bool true)) pos
              else
                minimistGo fuel rest2 (setArg flags body (toArgVal b)) pos
      else if strStartsWith a "-" && strLength a > 1 then
        let cluster := (strDrop a 1).data
        let initFlags := cluster.dropLast.foldl
          (fun fs c => setArg fs (String.singleton c) (ArgVal.bool true)) flags
        match cluster.getLast? with
        | none => minimistGo fuel rest flags pos
        | some c =>
            let key := String.singleton c
            match rest with
            | [] => minimistGo fuel [] (setArg initFlags key (ArgVal.bool true)) pos
            | b :: rest2 =>
                if looksLikeFlag b then
                  minimistGo fuel (b :: rest2) (setArg initFlags key (ArgVal.bool true)) pos
                else
                  minimistGo fuel rest2 (setArg initFlags key (toArgVal b)) pos
      else
        minimistGo fuel rest flags (pos ++ [toArgVal a])

/-- Modelled from the spec: parse a raw argument array into the
object-shaped representation consumed by the translation loop. -/
def minimist (args : List String) : List (String × ArgVal) :=
  minimistGo args.length args [] []

/-! ## Settings payload and spawn parameters -/

/-- Status-line configuration object; the source only reads its `enabled`
field as a truthiness test. -/
structure StatusLineConfig where
  enabled : Bool

/-- Preset configuration. `claudeCodeSettings` is loosely typed passthrough
and is modelled as a raw object; only its `env` field gets special
treatment in the source.  Model of the `PresetConfig` interface. -/
structure PresetConfig where
  noServer : Option Bool
  claudeCodeSettings : Option JObj
  provider : Option String
  StatusLine : Option StatusLineConfig

/-- Global configuration fields the launcher reads. -/
structure Config where
  NON_INTERACTIVE_MODE : Bool
  CLAUDE_PATH : Option String
  StatusLine : Option StatusLineConfig

/-- Status-line command string: the preset name is appended when one was
supplied and truthy (in JavaScript the empty string is falsy). -/
def statuslineCommand : Option String → String
  | some n => if n = "" then "ccr statusline" else "ccr statusline " ++ n
  | none => "ccr statusline"

/-- The synthesized command-type status line object. -/
def statusLineValue (presetName : Option String) : JVal :=
  JVal.obj [("type", JVal.str "command"),
            ("command", JVal.str (statuslineCommand presetName)),
            ("padding", JVal.num 0)]

/-- Step 1: apply the environment overrides onto the computed environment
via `Object.assign`. -/
def applyEnvOverrides (baseEnv : JObj) : Option JObj → JObj
  | some ov => jassign baseEnv ov
  | none => baseEnv

/-- Step 2: select the status-line configuration (preset first, then the
global one) and, when it is enabled, write the synthesized status line
into the payload. -/
def addStatusLine (config : Config) (presetConfig : Option PresetConfig)
    (presetName : Option String) (settingsFlag : JObj) : JObj :=
  match (presetConfig.bind fun pc => pc.StatusLine).orElse (fun _ => config.StatusLine) with
  | some sl =>
      if sl.enabled then jset settingsFlag "statusLine" (statusLineValue presetName)
      else settingsFlag
  | none => settingsFlag

/-- Step 3: merge the nested preset settings into the payload: spread all
top-level fields (preset wins), then overwrite the `env` field with the
deep merge of the two environment objects. -/
def mergeClaudeCodeSettings (settingsFlag ccs : JObj) : JObj :=
  jset (jassign settingsFlag ccs) "env"
    (JVal.obj (jassign (jgetObjD settingsFlag "env") (jgetObjD ccs "env")))

/-- Step 3 guarded on the preset actually declaring nested settings. -/
def applyPresetSettings (presetConfig : Option PresetConfig) (settingsFlag : JObj) : JObj :=
  match presetConfig.bind fun pc => pc.claudeCodeSettings with
  | some ccs => mergeClaudeCodeSettings settingsFlag ccs
  | none => settingsFlag

/-- The fixed environment override written in non-interactive mode, in
source order. -/
def nonInteractiveEnv : JObj :=
  [("CI", JVal.str "true"),
   ("FORCE_COLOR", JVal.str "0"),
   ("NODE_NO_READLINE", JVal.str "1"),
   ("TERM", JVal.str "dumb")]

/-- Step 4: in non-interactive mode, spread the fixed override onto the
payload environment, last and unconditionally. -/
def applyNonInteractive (config : Config) (settingsFlag : JObj) : JObj :=
  if config.NON_INTERACTIVE_MODE then
    jset settingsFlag "env" (JVal.obj (jassign (jgetObjD settingsFlag "env") nonInteractiveEnv))
  else settingsFlag

/-- The settings payload serialized to the settings file, as assembled by
lines 33 to 85 of the source. -/
def buildSettingsFlag (config : Config) (baseEnv : JObj) (presetConfig : Option PresetConfig)
    (envOverrides : Option JObj) (presetName : Option String) : JObj :=
  applyNonInteractive config
    (applyPresetSettings presetConfig
      (addStatusLine config presetConfig presetName
        [("env", JVal.obj (applyEnvOverrides baseEnv envOverrides))]))

/-- JavaScript truthiness filter on an optional string: absent and empty
strings are falsy. -/
def truthyStr : Option String → Option String
  | some s => if s = "" then none else some s
  | none => none

/-- Read a string-valued field of an object. -/
def jgetStr (o : JObj) (k : String) : Option String :=
  match jget o k with
  | some (JVal.str s) => some s
  | _ => none

/-- Observable results of one invocation of `executeCodeCommand` up to the
spawn call: the payload written to the settings file, the contents of the
caller-supplied argument array after the call (the source pushes two
elements onto it), and the command, argv, environment, shell flag and
stdin piping of the spawn. -/
structure LaunchResult where
  settingsPayload : JObj
  argsAfter : List String
  claudePath : String
  spawnArgs : List String
  spawnEnv : JObj
  spawnShell : Bool
  stdinPiped : Bool

/-- Model of `executeCodeCommand`.  The collaborator results (global
config, computed environment, parent process environment, settings file
path) are passed in as inputs; everything else follows the source line by
line: build the payload, push `--settings` and the path onto the argument
array, resolve the executable path with JavaScript or-chains, translate
the (parsed) arguments, and spawn with a copy of the parent environment,
using a shell only in interactive mode. -/
def executeCodeCommand (args : List String) (presetConfig : Option PresetConfig)
    (envOverrides : Option JObj) (presetName : Option String)
    (config : Config) (baseEnv parentEnv : JObj) (settingsFile : String) : LaunchResult :=
  let settingsFlag := buildSettingsFlag config baseEnv presetConfig envOverrides presetName
  let argsAfter := args ++ ["--settings", settingsFile]
  let claudePath :=
    ((truthyStr config.CLAUDE_PATH).orElse
      (fun _ => truthyStr (jgetStr parentEnv "CLAUDE_PATH"))).getD "claude"
  { settingsPayload := settingsFlag
    argsAfter := argsAfter
    claudePath := claudePath
    spawnArgs := translateArgs config.NON_INTERACTIVE_MODE (minimist argsAfter)
    spawnEnv := jassign [] parentEnv
    spawnShell := !config.NON_INTERACTIVE_MODE
    stdinPiped := config.NON_INTERACTIVE_MODE }

/-- Environment object of the final settings payload. -/
def settingsEnv (r : LaunchResult) : JObj :=
  jgetObjD r.settingsPayload "env"

/-! ## Post-spawn lifecycle (reference counting and exit handling)

In the source, `incrementReferenceCount()` runs once before `spawn`, and
then exactly one of the two registered handlers terminates the host
process: the `error` handler (spawn failure) or the `close` handler
(subprocess termination).  `process.exit` halts the event loop, so no
further handler runs after the first terminal one.  We model the
observable collaborator calls of one invocation as a trace of effects
indexed by the spawn outcome. -/

/-- Observable side effects of the launcher after settings are written. -/
inductive Effect where
  | incrementReferenceCount
  | decrementReferenceCount
  | closeService
  | consoleError (msg : String)
  | consoleLog (msg : String)
  | processExit (code : Nat)
deriving DecidableEq

/-- Outcome of the spawn: either the `error` event fires with a message, or
the `close` event fires with an exit code (`none` when the subprocess was
terminated by a signal and no code is available). -/
inductive SpawnOutcome where
  | spawnError (msg : String)
  | closed (code : Option Nat)

/-- JavaScript `a || b` on an optional number: `null` and `0` are falsy. -/
def jsOrNat : Option Nat → Nat → Nat
  | some n, d => if n = 0 then d else n
  | none, d => d

/-- Effects of the `error` handler: report with a remediation hint,
decrement the reference count, exit 1. -/
def onError (msg : String) : List Effect :=
  [Effect.consoleError ("Failed to start claude command: " ++ msg),
   Effect.consoleLog "Make sure Claude Code is installed: npm install -g @anthropic-ai/claude-code",
   Effect.decrementReferenceCount,
   Effect.processExit 1]

/-- Effects of the `close` handler: decrement the reference count, close the
service, exit with `code || 0`. -/
def onClose (code : Option Nat) : List Effect :=
  [Effect.decrementReferenceCount,
   Effect.closeService,
   Effect.processExit (jsOrNat code 0)]

/-- Full effect trace of one invocation past the settings write: one
increment, then the unique terminal handler selected by the outcome. -/
def runLifecycle : SpawnOutcome → List Effect
  | SpawnOutcome.spawnError msg => Effect.incrementReferenceCount :: onError msg
  | SpawnOutcome.closed code => Effect.incrementReferenceCount :: onClose code

/-! ## Claim theorems -/

/-- Claim C1: every invocation performs exactly one reference-count
increment and exactly one decrement, reached through exactly one of the
two terminal handlers (spawn error or close), and the trace ends in a
process exit, so no execution decrements twice or exits without
decrementing. -/
theorem executeCodeCommand_refcount_invariant (o : SpawnOutcome) :
    (runLifecycle o).count Effect.incrementReferenceCount = 1 ∧
    (runLifecycle o).count Effect.decrementReferenceCount = 1 ∧
    ((∃ msg, o = SpawnOutcome.spawnError msg ∧
        runLifecycle o = Effect.incrementReferenceCount :: onError msg) ∨
     (∃ c, o = SpawnOutcome.closed c ∧
        runLifecycle o = Effect.incrementReferenceCount :: onClose c)) ∧
    (∃ n, (runLifecycle o).getLast? = some (Effect.processExit n)) := by
  cases o with
  | spawnError msg =>
      refine ⟨?_, ?_, Or.inl ⟨msg, rfl, rfl⟩, ⟨1, rfl⟩⟩ <;>
        simp [runLifecycle, onError, List.count_cons]
  | closed c =>
      refine ⟨?_, ?_, Or.inr ⟨c, rfl, rfl⟩, ⟨jsOrNat c 0, rfl⟩⟩ <;>
        simp [runLifecycle, onClose, List.count_cons]

/-- Claim C7: the close handler decrements the reference count, invokes the
service-shutdown collaborator, and exits with the subprocess exit code
verbatim, substituting 0 exactly when no code is available. -/
theorem executeCodeCommand_close_exit_code (code : Option Nat) :
    runLifecycle (SpawnOutcome.closed code)
      = [Effect.incrementReferenceCount, Effect.decrementReferenceCount,
         Effect.closeService, Effect.processExit (code.getD 0)] := by
  cases code with
  | none => rfl
  | some c =>
      have h : jsOrNat (some c) 0 = c := by
        simp only [jsOrNat]
        split
        · omega
        · rfl
      simp [runLifecycle, onClose, h]

/-- Claim C8: the spawn-error handler reports the failure with a
remediation hint, decrements the reference count and exits with status 1,
and does not invoke the service-shutdown collaborator. -/
theorem executeCodeCommand_spawn_error_effects (msg : String) :
    runLifecycle (SpawnOutcome.spawnError msg)
      = [Effect.incrementReferenceCount,
         Effect.consoleError ("Failed to start claude command: " ++ msg),
         Effect.consoleLog "Make sure Claude Code is installed: npm install -g @anthropic-ai/claude-code",
         Effect.decrementReferenceCount,
         Effect.processExit 1]
    ∧ Effect.closeService ∉ runLifecycle (SpawnOutcome.spawnError msg) := by
  refine ⟨rfl, ?_⟩
  simp [runLifecycle, onError]

/-- Claim C4: in both interactive and non-interactive mode, a parsed flag
whose value is boolean true is emitted as a single bare token (single dash
for one-character names, double dash otherwise) with no value token, and a
parsed flag whose value is boolean false produces no token at all. -/
theorem translateArgs_boolean_flags (ni : Bool) (pre post : List (String × ArgVal))
    (k : String) (hk : k ≠ "_") :
    translateArgs ni (pre ++ (k, ArgVal.bool true) :: post)
      = translateArgs ni pre
          ++ ((if strLength k = 1 then "-" else "--") ++ k) :: translateArgs ni post
    ∧ translateArgs ni (pre ++ (k, ArgVal.bool false) :: post)
      = translateArgs ni pre ++ translateArgs ni post := by
  constructor <;>
    simp [translateArgs_eq_bind, emitFlag, hk, dashOf]

/-- Closed witness for the boolean-flag translation theorem at a concrete
flag list. -/
theorem translateArgs_boolean_flags_witness :
    ("v" : String) ≠ "_"
    ∧ (translateArgs true ([("model", ArgVal.str "x")] ++ ("v", ArgVal.bool true) :: [])
        = translateArgs true [("model", ArgVal.str "x")]
            ++ ((if strLength "v" = 1 then "-" else "--") ++ "v")
              :: translateArgs true []
      ∧ translateArgs true ([("model", ArgVal.str "x")] ++ ("v", ArgVal.bool false) :: [])
        = translateArgs true [("model", ArgVal.str "x")] ++ translateArgs true []) :=
  ⟨by decide, translateArgs_boolean_flags true [("model", ArgVal.str "x")] [] "v" (by decide)⟩

/-- Claim C6: in non-interactive mode the argument list consisting of the
tokens for a model flag and its value translates to two discrete argv
tokens, the flag and the raw string value; a digit-string value likewise
round-trips through numeric conversion to its textual form as a separate
token. -/
theorem executeCodeCommand_separate_tokens :
    translateArgs true (minimist ["--model", "x"]) = ["--model", "x"]
    ∧ translateArgs true (minimist ["--count", "5"]) = ["--count", "5"] :=
  ⟨rfl, rfl⟩

/-- Claim C2: merging the nested preset settings into the payload
shallow-merges every top-level field with the preset winning on conflict,
while the environment field is deep-merged: a preset environment key
overrides the same base key and every other base environment key
survives; in particular a base of A mapped to 1 and B mapped to 2 merged
with a preset environment of B mapped to 3 and C mapped to 4 yields A
mapped to 1, B mapped to 3 and C mapped to 4. -/
theorem mergeClaudeCodeSettings_deep_merge (sf ccs : JObj)
    (hccs : (jkeys ccs).Nodup) (henv : (jkeys (jgetObjD ccs "env")).Nodup) :
    (∀ k, jget (jgetObjD (mergeClaudeCodeSettings sf ccs) "env") k
        = (jget (jgetObjD ccs "env") k).or (jget (jgetObjD sf "env") k))
    ∧ (∀ k, k ≠ "env" → jget (mergeClaudeCodeSettings sf ccs) k
        = (jget ccs k).or (jget sf k))
    ∧ mergeClaudeCodeSettings [("env", JVal.obj [("A", JVal.num 1), ("B", JVal.num 2)])]
        [("env", JVal.obj [("B", JVal.num 3), ("C", JVal.num 4)])]
      = [("env", JVal.obj [("A", JVal.num 1), ("B", JVal.num 3), ("C", JVal.num 4)])] := by
  refine ⟨fun k => ?_, fun k hk => ?_, rfl⟩
  · have h1 : jget (mergeClaudeCodeSettings sf ccs) "env"
        = some (JVal.obj (jassign (jgetObjD sf "env") (jgetObjD ccs "env"))) := by
      simp only [mergeClaudeCodeSettings]
      rw [jget_jset, if_pos rfl]
    simp only [jgetObjD, h1]
    exact jget_jassign _ _ _ henv
  · simp only [mergeClaudeCodeSettings]
    rw [jget_jset, if_neg (fun h => hk h.symm)]
    exact jget_jassign _ _ _ hccs

/-- Closed witness for the deep-merge theorem at concrete base and preset
settings objects. -/
theorem mergeClaudeCodeSettings_deep_merge_witness :
    (jkeys [("env", JVal.obj [("B", JVal.num 3), ("C", JVal.num 4)]),
            ("model", JVal.str "m")]).Nodup
    ∧ (jkeys (jgetObjD [("env", JVal.obj [("B", JVal.num 3), ("C", JVal.num 4)]),
            ("model", JVal.str "m")] "env")).Nodup
    ∧ ((∀ k, jget (jgetObjD (mergeClaudeCodeSettings
            [("env", JVal.obj [("A", JVal.num 1), ("B", JVal.num 2)])]
            [("env", JVal.obj [("B", JVal.num 3), ("C", JVal.num 4)]),
             ("model", JVal.str "m")]) "env") k
          = (jget (jgetObjD [("env", JVal.obj [("B", JVal.num 3), ("C", JVal.num 4)]),
              ("model", JVal.str "m")] "env") k).or
            (jget (jgetObjD [("env", JVal.obj [("A", JVal.num 1), ("B", JVal.num 2)])] "env") k))
      ∧ (∀ k, k ≠ "env" → jget (mergeClaudeCodeSettings
            [("env", JVal.obj [("A", JVal.num 1), ("B", JVal.num 2)])]
            [("env", JVal.obj [("B", JVal.num 3), ("C", JVal.num 4)]),
             ("model", JVal.str "m")]) k
          = (jget [("env", JVal.obj [("B", JVal.num 3), ("C", JVal.num 4)]),
              ("model", JVal.str "m")] k).or
            (jget [("env", JVal.obj [("A", JVal.num 1), ("B", JVal.num 2)])] k))
      ∧ mergeClaudeCodeSettings [("env", JVal.obj [("A", JVal.num 1), ("B", JVal.num 2)])]
            [("env", JVal.obj [("B", JVal.num 3), ("C", JVal.num 4)])]
          = [("env", JVal.obj [("A", JVal.num 1), ("B", JVal.num 3), ("C", JVal.num 4)])]) :=
  ⟨by decide, by decide,
   mergeClaudeCodeSettings_deep_merge
     [("env", JVal.obj [("A", JVal.num 1), ("B", JVal.num 2)])]
     [("env", JVal.obj [("B", JVal.num 3), ("C", JVal.num 4)]), ("model", JVal.str "m")]
     (by decide) (by decide)⟩

theorem applyNonInteractive_env (config : Config) (sf : JObj)
    (hni : config.NON_INTERACTIVE_MODE = true) (k : String) :
    jget (jgetObjD (applyNonInteractive config sf) "env") k
      = (jget nonInteractiveEnv k).or (jget (jgetObjD sf "env") k) := by
  simp only [applyNonInteractive, hni, if_true, jgetObjD]
  rw [jget_jset, if_pos rfl]
  exact jget_jassign _ _ _ (by decide)

/-- Claim C3: in non-interactive mode the environment of the final
settings payload maps TERM to dumb, CI to true, FORCE_COLOR to 0 and
NODE_NO_READLINE to 1, regardless of the base environment, the
environment overrides and the nested preset settings, because the fixed
override is spread last. -/
theorem nonInteractive_env_override (args : List String)
    (presetConfig : Option PresetConfig) (envOverrides : Option JObj)
    (presetName : Option String) (config : Config) (baseEnv parentEnv : JObj)
    (settingsFile : String) (hni : config.NON_INTERACTIVE_MODE = true) :
    jget (settingsEnv (executeCodeCommand args presetConfig envOverrides presetName
        config baseEnv parentEnv settingsFile)) "TERM" = some (JVal.str "dumb")
    ∧ jget (settingsEnv (executeCodeCommand args presetConfig envOverrides presetName
        config baseEnv parentEnv settingsFile)) "CI" = some (JVal.str "true")
    ∧ jget (settingsEnv (executeCodeCommand args presetConfig envOverrides presetName
        config baseEnv parentEnv settingsFile)) "FORCE_COLOR" = some (JVal.str "0")
    ∧ jget (settingsEnv (executeCodeCommand args presetConfig envOverrides presetName
        config baseEnv parentEnv settingsFile)) "NODE_NO_READLINE" = some (JVal.str "1") := by
  refine ⟨?_, ?_, ?_, ?_⟩ <;>
  · simp only [settingsEnv, executeCodeCommand, buildSettingsFlag]
    rw [applyNonInteractive_env _ _ hni]
    rfl

/-- Closed witness for the non-interactive override theorem: the base
environment attempts to set TERM and CI differently and is overridden. -/
theorem nonInteractive_env_override_witness :
    (Config.mk true none none).NON_INTERACTIVE_MODE = true
    ∧ (jget (settingsEnv (executeCodeCommand [] none none none (Config.mk true none none)
          [("TERM", JVal.str "xterm"), ("CI", JVal.str "false")] [] "f")) "TERM"
        = some (JVal.str "dumb")
      ∧ jget (settingsEnv (executeCodeCommand [] none none none (Config.mk true none none)
          [("TERM", JVal.str "xterm"), ("CI", JVal.str "false")] [] "f")) "CI"
        = some (JVal.str "true")
      ∧ jget (settingsEnv (executeCodeCommand [] none none none (Config.mk true none none)
          [("TERM", JVal.str "xterm"), ("CI", JVal.str "false")] [] "f")) "FORCE_COLOR"
        = some (JVal.str "0")
      ∧ jget (settingsEnv (executeCodeCommand [] none none none (Config.mk true none none)
          [("TERM", JVal.str "xterm"), ("CI", JVal.str "false")] [] "f")) "NODE_NO_READLINE"
        = some (JVal.str "1")) :=
  ⟨rfl, nonInteractive_env_override [] none none none (Config.mk true none none)
    [("TERM", JVal.str "xterm"), ("CI", JVal.str "false")] [] "f" rfl⟩

theorem jget_applyNonInteractive_ne_env (config : Config) (sf : JObj) (k : String)
    (hk : k ≠ "env") : jget (applyNonInteractive config sf) k = jget sf k := by
  unfold applyNonInteractive
  split
  · rw [jget_jset, if_neg (fun h => hk h.symm)]
  · rfl

theorem jget_applyPresetSettings_statusLine (pc : PresetConfig) (sf : JObj)
    (hccs : ∀ ccs, pc.claudeCodeSettings = some ccs → jget ccs "statusLine" = none) :
    jget (applyPresetSettings (some pc) sf) "statusLine" = jget sf "statusLine" := by
  unfold applyPresetSettings
  cases hc : pc.claudeCodeSettings with
  | none => simp [hc]
  | some ccs =>
      simp only [Option.some_bind, hc, mergeClaudeCodeSettings]
      rw [jget_jset, if_neg (by decide)]
      exact jget_jassign_of_not_mem _ _ _ (hccs ccs hc)

theorem jget_addStatusLine_of_preset (config : Config) (pc : PresetConfig)
    (pn : Option String) (sf : JObj) (sl : StatusLineConfig)
    (hpre : pc.StatusLine = some sl) (hsl : sl.enabled = true) :
    jget (addStatusLine config (some pc) pn sf) "statusLine"
      = some (statusLineValue pn) := by
  unfold addStatusLine
  simp only [Option.some_bind, hpre]
  simp only [Option.orElse, hsl, if_true]
  rw [jget_jset, if_pos rfl]

/-- Counterexample to claim C5: when the preset carries nested settings
with their own statusLine field, the shallow merge overwrites the
synthesized status line even though both the preset status line and the
global status line are present and enabled and a preset name was given,
so the final payload does not hold the synthesized command object. -/
theorem statusLine_override_counterexample :
    jget (executeCodeCommand []
        (some (PresetConfig.mk none (some [("statusLine", JVal.str "custom")]) none
          (some (StatusLineConfig.mk true))))
        none (some "p") (Config.mk false none (some (StatusLineConfig.mk true)))
        [] [] "f").settingsPayload "statusLine"
      = some (JVal.str "custom")
    ∧ some (JVal.str "custom") ≠ some (statusLineValue (some "p")) :=
  ⟨rfl, fun h => JVal.noConfusion (Option.some.inj h)⟩

/-- Claim C5 as amended: when both a preset status line and a global
status line are present and enabled and a non-empty preset name is
supplied, and the nested preset settings (if any) do not themselves carry
a statusLine field, the payload status line is the synthesized
command-type object with padding 0 whose command string carries the
preset name suffix. -/
theorem statusLine_preset_priority (args : List String) (pc : PresetConfig)
    (envOverrides : Option JObj) (n : String) (config : Config)
    (baseEnv parentEnv : JObj) (settingsFile : String) (sl gl : StatusLineConfig)
    (hpre : pc.StatusLine = some sl) (hsl : sl.enabled = true)
    (hglob : config.StatusLine = some gl) (hgl : gl.enabled = true)
    (hn : n ≠ "")
    (hccs : ∀ ccs, pc.claudeCodeSettings = some ccs → jget ccs "statusLine" = none) :
    jget (executeCodeCommand args (some pc) envOverrides (some n) config baseEnv
        parentEnv settingsFile).settingsPayload "statusLine"
      = some (JVal.obj [("type", JVal.str "command"),
                        ("command", JVal.str ("ccr statusline " ++ n)),
                        ("padding", JVal.num 0)]) := by
  simp only [executeCodeCommand, buildSettingsFlag]
  rw [jget_applyNonInteractive_ne_env _ _ _ (by decide),
    jget_applyPresetSettings_statusLine _ _ hccs,
    jget_addStatusLine_of_preset _ _ _ _ _ hpre hsl]
  simp [statusLineValue, statuslineCommand, hn]

/-- Closed witness for the amended status-line theorem. -/
theorem statusLine_preset_priority_witness :
    (PresetConfig.mk none (some [("theme", JVal.str "dark")]) none
        (some (StatusLineConfig.mk true))).StatusLine = some (StatusLineConfig.mk true)
    ∧ (StatusLineConfig.mk true).enabled = true
    ∧ (Config.mk false none (some (StatusLineConfig.mk true))).StatusLine
        = some (StatusLineConfig.mk true)
    ∧ (StatusLineConfig.mk true).enabled = true
    ∧ ("p" : String) ≠ ""
    ∧ (∀ ccs, (PresetConfig.mk none (some [("theme", JVal.str "dark")]) none
        (some (StatusLineConfig.mk true))).claudeCodeSettings = some ccs →
        jget ccs "statusLine" = none)
    ∧ jget (executeCodeCommand []
        (some (PresetConfig.mk none (some [("theme", JVal.str "dark")]) none
          (some (StatusLineConfig.mk true))))
        none (some "p") (Config.mk false none (some (StatusLineConfig.mk true)))
        [] [] "f").settingsPayload "statusLine"
      = some (JVal.obj [("type", JVal.str "command"),
                        ("command", JVal.str ("ccr statusline " ++ "p")),
                        ("padding", JVal.num 0)]) :=
  ⟨rfl, rfl, rfl, rfl, by decide, fun ccs h => by cases h; rfl,
   statusLine_preset_priority []
     (PresetConfig.mk none (some [("theme", JVal.str "dark")]) none
       (some (StatusLineConfig.mk true)))
     none "p" (Config.mk false none (some (StatusLineConfig.mk true))) [] [] "f"
     (StatusLineConfig.mk true) (StatusLineConfig.mk true)
     rfl rfl rfl rfl (by decide) (fun ccs h => by cases h; rfl)⟩

/-- Counterexample to claim C9: the call pushes the settings flag and the
settings path onto the caller-supplied argument array, so the array after
the call differs from the array that was passed in. -/
theorem executeCodeCommand_args_mutation_counterexample :
    (executeCodeCommand ["--model", "x"] none none none
        (Config.mk false none none) [] [] "/tmp/settings.json").argsAfter
      ≠ ["--model", "x"] := by
  decide

/-- Claim C9 as amended: the call leaves the preset configuration and the
environment overrides untouched but mutates the caller-supplied argument
array by appending exactly the settings flag and the settings path, so
the original arguments stay a prefix of the array after the call. -/
theorem executeCodeCommand_args_settings_appended (args : List String)
    (presetConfig : Option PresetConfig) (envOverrides : Option JObj)
    (presetName : Option String) (config : Config) (baseEnv parentEnv : JObj)
    (settingsFile : String) :
    (executeCodeCommand args presetConfig envOverrides presetName config baseEnv
        parentEnv settingsFile).argsAfter = args ++ ["--settings", settingsFile]
    ∧ args <+: (executeCodeCommand args presetConfig envOverrides presetName config
        baseEnv parentEnv settingsFile).argsAfter :=
  ⟨rfl, ⟨["--settings", settingsFile], rfl⟩⟩

/-- Claim C10: the environment handed to the spawned subprocess is exactly
a copy of the parent process environment; the computed environment, the
environment overrides and the non-interactive override keys influence
only the settings payload, so the spawn environment is unchanged when
every other input varies. -/
theorem executeCodeCommand_spawn_env (args : List String)
    (presetConfig : Option PresetConfig) (envOverrides : Option JObj)
    (presetName : Option String) (config : Config) (baseEnv parentEnv : JObj)
    (settingsFile : String) (hp : (jkeys parentEnv).Nodup) :
    (executeCodeCommand args presetConfig envOverrides presetName config baseEnv
        parentEnv settingsFile).spawnEnv = parentEnv
    ∧ ∀ (args2 : List String) (pc2 : Option PresetConfig) (ov2 : Option JObj)
        (pn2 : Option String) (config2 : Config) (baseEnv2 : JObj)
        (settingsFile2 : String),
        (executeCodeCommand args2 pc2 ov2 pn2 config2 baseEnv2 parentEnv
            settingsFile2).spawnEnv
          = (executeCodeCommand args presetConfig envOverrides presetName config
              baseEnv parentEnv settingsFile).spawnEnv :=
  ⟨jassign_nil parentEnv hp, fun _ _ _ _ _ _ _ => rfl⟩

/-- Closed witness for the spawn-environment theorem at a concrete parent
environment. -/
theorem executeCodeCommand_spawn_env_witness :
    (jkeys [("PATH", JVal.str "/bin"), ("CLAUDE_PATH", JVal.str "cc")]).Nodup
    ∧ ((executeCodeCommand [] none none none (Config.mk true none none) []
          [("PATH", JVal.str "/bin"), ("CLAUDE_PATH", JVal.str "cc")] "f").spawnEnv
        = [("PATH", JVal.str "/bin"), ("CLAUDE_PATH", JVal.str "cc")]
      ∧ ∀ (args2 : List String) (pc2 : Option PresetConfig) (ov2 : Option JObj)
          (pn2 : Option String) (config2 : Config) (baseEnv2 : JObj)
          (settingsFile2 : String),
          (executeCodeCommand args2 pc2 ov2 pn2 config2 baseEnv2
              [("PATH", JVal.str "/bin"), ("CLAUDE_PATH", JVal.str "cc")]
              settingsFile2).spawnEnv
            = (executeCodeCommand [] none none none (Config.mk true none none) []
                [("PATH", JVal.str "/bin"), ("CLAUDE_PATH", JVal.str "cc")]
                "f").spawnEnv) :=
  ⟨by decide, executeCodeCommand_spawn_env [] none none none
    (Config.mk true none none) []
    [("PATH", JVal.str "/bin"), ("CLAUDE_PATH", JVal.str "cc")] "f" (by decide)⟩

end CodeCommand
